import Mathlib

/-!
Shallow embedding of the NutriScoreOffline pipeline
(src/DataBaseScraping/fetch.py and src/DataBaseScraping/convert_csv_db.py).

The Extractor (fetch.py) reads the raw dataset with dtype=str, so every raw
cell is either a string or NaN: we model a raw cell as `Option String`
(`none` = NaN).  The Loader (convert_csv_db.py) works on cells that can also
become numeric after `pd.to_numeric`; we model its cells with `Cell`
(na / str / num), numbers as exact rationals.  DataFrames are modelled as a
column-name list plus rows of (column, cell) association lists; every pandas
operation used by the scripts is transcribed on this representation.
-/

namespace NutriScore

/-! ### Python string primitives used by both scripts -/

/-- Python `str.lower()` restricted to the chars appearing here (ASCII). -/
def lowerChars (cs : List Char) : List Char := cs.map Char.toLower

/-- `charsLeads pat hay`: `hay` starts with `pat`. -/
def charsLeads : List Char → List Char → Bool
  | [], _ => true
  | _ :: _, [] => false
  | p :: ps, h :: hs => p == h && charsLeads ps hs

/-- `charsHas pat hay`: `pat` occurs as a contiguous substring of `hay`
(the semantics of a metacharacter-free regex literal match). -/
def charsHas (pat : List Char) : List Char → Bool
  | [] => charsLeads pat []
  | h :: hs => charsLeads pat (h :: hs) || charsHas pat hs

/-- Python `str.strip()` (ASCII whitespace, which is all that occurs here). -/
def stripChars (cs : List Char) : List Char :=
  ((cs.dropWhile Char.isWhitespace).reverse.dropWhile Char.isWhitespace).reverse

/-- Python `str.strip()` on a `String`. -/
def strip (s : String) : String := ⟨stripChars s.data⟩

/-- Python `str.upper()` (ASCII). -/
def upperStr (s : String) : String := ⟨s.data.map Char.toUpper⟩

/-! ### Extractor (fetch.py)

Raw rows are read with `dtype=str`, so a cell is `Option String` (`none` = NaN).
A row is an association list from column name to cell. -/

/-- A raw / filtered CSV row of the Extractor: column name ↦ optional string. -/
abbrev XRow := List (String × Option String)

/-- Cell of column `c` in row `r`; absent columns read as NaN. -/
def xGet (r : XRow) (c : String) : Option String := (List.lookup c r).getD none

/-- fetch.py line 7-13: the `usecols` list passed to `pd.read_csv`. -/
def usecols : List String :=
  ["code", "product_name", "brands", "categories", "quantity",
   "nutriscore_grade", "nutriscore_score", "nova_group",
   "energy-kcal_100g", "proteins_100g", "carbohydrates_100g",
   "sugars_100g", "fat_100g", "saturated-fat_100g",
   "fiber_100g", "salt_100g", "sodium_100g", "countries_tags"]

/-- fetch.py lines 36-42: the column list of the `chunk.loc[mask, [...]]`
projection (NOTE: `countries_tags` is not in it). -/
def filteredCols : List String :=
  ["code", "product_name", "brands", "categories", "quantity",
   "nutriscore_grade", "nutriscore_score", "nova_group",
   "energy-kcal_100g", "proteins_100g", "carbohydrates_100g",
   "sugars_100g", "fat_100g", "saturated-fat_100g",
   "fiber_100g", "salt_100g", "sodium_100g"]

/-- fetch.py line 33: `chunk["countries_tags"].fillna("").str.contains("portugal|spain",
case=False, regex=True)` applied to one cell.  The regex is an alternation of two
metacharacter-free literals, i.e. a case-insensitive substring test. -/
def countryMask (v : Option String) : Bool :=
  charsHas (lowerChars "portugal".data) (lowerChars (v.getD "").data)
    || charsHas (lowerChars "spain".data) (lowerChars (v.getD "").data)

/-- fetch.py lines 36-42 column projection of one row. -/
def projectRow (r : XRow) : XRow := filteredCols.map fun c => (c, xGet r c)

/-- fetch.py line 42: `.dropna(subset=["product_name","energy-kcal_100g"])`
keep-condition for one row. -/
def dropnaKeep (r : XRow) : Bool :=
  (xGet r "product_name").isSome && (xGet r "energy-kcal_100g").isSome

/-- fetch.py lines 33-42: `filtered` for one chunk: mask by country, project
to `filteredCols`, drop rows with NaN product_name / energy-kcal_100g. -/
def processChunk (chunk : List XRow) : List XRow :=
  (((chunk.filter countryMaskRow).map projectRow).filter dropnaKeep)
where
  countryMaskRow (r : XRow) : Bool := countryMask (xGet r "countries_tags")

/-- State of the Extractor's chunk loop: fetch.py lines 17-18 and 44-55.
`out` is the log of appends to the output CSV: each entry records whether the
header was included (`header=not header_written`) and the rows written. -/
structure XState where
  header_written : Bool
  out : List (Bool × List XRow)
  total_kept : Nat
deriving Repr

/-- One iteration of the fetch.py chunk loop (lines 33-55): an empty filtered
chunk writes nothing (`continue`); otherwise the filtered rows are appended,
with the header exactly when it has not been written yet. -/
def stepChunk (st : XState) (chunk : List XRow) : XState :=
  let filtered := processChunk chunk
  if filtered.isEmpty then st
  else
    { header_written := true
      out := st.out ++ [(!st.header_written, filtered)]
      total_kept := st.total_kept + filtered.length }

/-- The whole Extractor run over a list of chunks, starting from
`header_written = False`, empty output, `total_kept = 0`. -/
def runExtract (chunks : List (List XRow)) : XState :=
  chunks.foldl stepChunk ⟨false, [], 0⟩

/-! ### Loader (convert_csv_db.py)

The Loader reads the filtered CSV without `dtype=str`; a cell holds either a
missing value (NaN), the field's text, or — after `pd.to_numeric` — a number
(modelled as an exact rational). -/

/-- A Loader cell: NaN / text / number. -/
inductive Cell where
  | na : Cell
  | str : String → Cell
  | num : Rat → Cell
deriving DecidableEq, Repr

/-- A Loader row: column name ↦ cell. -/
abbrev LRow := List (String × Cell)

/-- A Loader dataframe: its column list plus its rows. -/
structure Frame where
  cols : List String
  rows : List LRow
deriving DecidableEq, Repr

/-- Cell of column `c` in row `r`; absent columns read as NaN. -/
def rowGet (r : LRow) (c : String) : Cell := (List.lookup c r).getD .na

/-- pandas column assignment `df_m[c] = v` at row level: replace the cell of an
existing column in place, or append a new column at the end. -/
def rowSet (r : LRow) (c : String) (v : Cell) : LRow :=
  if (List.lookup c r).isSome then
    r.map fun p => if p.1 = c then (c, v) else p
  else r ++ [(c, v)]

/-- convert_csv_db.py lines 28-45: `rename_map` (a Python dict; insertion
order preserved). -/
def rename_map : List (String × String) :=
  [("product_name", "name"),
   ("brands", "brand"),
   ("categories", "categories"),
   ("quantity", "quantity"),
   ("nutriscore_score", "nutriScoreScore"),
   ("nova_group", "novaGroup"),
   ("energy-kcal_100g", "energyKcal_100g"),
   ("proteins_100g", "proteins_100g"),
   ("carbohydrates_100g", "carbs_100g"),
   ("sugars_100g", "sugars_100g"),
   ("fat_100g", "fat_100g"),
   ("saturated-fat_100g", "satFat_100g"),
   ("fiber_100g", "fiber_100g"),
   ("salt_100g", "salt_100g"),
   ("sodium_100g", "sodium_100g"),
   ("countries_tags", "countries")]

/-- The destination name of a source column under `rename_map`. -/
def renameOf (c : String) : String := (List.lookup c rename_map).getD c

/-- convert_csv_db.py line 47: `cols_present = [c for c in rename_map.keys() if c in df.columns]`. -/
def cols_present (cols : List String) : List String :=
  (rename_map.map Prod.fst).filter fun c => decide (c ∈ cols)

/-- The column list of `df_m = df[cols_present].rename(columns=rename_map)`. -/
def mappedCols (cols : List String) : List String := (cols_present cols).map renameOf

/-- convert_csv_db.py line 48 at row level: project to `cols_present` and rename. -/
def renameRow (cols : List String) (r : LRow) : LRow :=
  (cols_present cols).map fun c => (renameOf c, rowGet r c)

/-- pandas `astype(str)` on one cell: NaN prints as `"nan"`, text stays itself,
a number prints via its decimal representation. -/
def astype_str : Cell → String
  | .na => "nan"
  | .str s => s
  | .num q => toString q

/-- convert_csv_db.py line 55: `valid = {"A","B","C","D","E"}` (a set of
one-character strings). -/
def valid : List String := ["A", "B", "C", "D", "E"]

/-- convert_csv_db.py lines 57-61: `norm_grade`. -/
def norm_grade (x : Cell) : Cell :=
  match x with
  | .na => .na
  | _ =>
    let s := upperStr (strip (astype_str x))
    match s.data with
    | [] => .na
    | ch :: _ =>
      if decide (String.mk [ch] ∈ valid) then .str (String.mk [ch]) else .na

/-- Decimal digit run accumulator: consumes leading digits, returning the
accumulated value, the digit count, and the rest. -/
def digitsAcc : List Char → Nat → Nat → Nat × Nat × List Char
  | [], v, n => (v, n, [])
  | c :: cs, v, n =>
    if c.isDigit then digitsAcc cs (v * 10 + (c.toNat - 48)) (n + 1)
    else (v, n, c :: cs)

/-- The numeral grammar accepted by `pd.to_numeric`: optional sign, decimal
digits with an optional fractional part, optional exponent, surrounding
whitespace allowed.  Returns the exact rational value, or `none` when the
string is not a numeral. -/
def parseNum (s : String) : Option Rat :=
  let cs := stripChars s.data
  let sign : Rat := if cs.head? = some '-' then -1 else 1
  let cs := if cs.head? = some '-' || cs.head? = some '+' then cs.tail else cs
  let (ip, ic, cs) := digitsAcc cs 0 0
  let (fp, fc, cs) :=
    if cs.head? = some '.' then digitsAcc cs.tail 0 0 else (0, 0, cs)
  if ic + fc = 0 then none
  else
    let mant : Rat := sign * ((ip : Rat) + (fp : Rat) / ((10 : Rat) ^ fc))
    match cs with
    | [] => some mant
    | e :: t =>
      if e = 'e' || e = 'E' then
        let esign : Int := if t.head? = some '-' then -1 else 1
        let t := if t.head? = some '-' || t.head? = some '+' then t.tail else t
        let (ev, ec, t) := digitsAcc t 0 0
        if ec = 0 || !t.isEmpty then none
        else some (mant * (10 : Rat) ^ (esign * (ev : Int)))
      else none

/-- convert_csv_db.py line 75: `pd.to_numeric(df_m[c], errors="coerce")` on one
cell: NaN stays NaN, numbers stay themselves, text parses to a number or
coerces to NaN — never an error. -/
def to_numeric : Cell → Cell
  | .na => .na
  | .num q => .num q
  | .str s => match parseNum s with
    | some q => .num q
    | none => .na

/-- convert_csv_db.py lines 68-72: `num_cols`. -/
def num_cols : List String :=
  ["nutriScoreScore", "novaGroup", "energyKcal_100g", "proteins_100g",
   "carbs_100g", "sugars_100g", "fat_100g", "satFat_100g",
   "fiber_100g", "salt_100g", "sodium_100g"]

/-- convert_csv_db.py lines 73-75 at row level: coerce every cell sitting in a
`num_cols` column (the `if c in df_m.columns` guard only skips absent columns). -/
def coerceRow (r : LRow) : LRow :=
  r.map fun p => if decide (p.1 ∈ num_cols) then (p.1, to_numeric p.2) else p

/-- convert_csv_db.py lines 48-75 for one row: select/rename (line 48), derive
`barcode` from the raw `code` via `astype(str).str.strip()` (line 50), derive
`name` from raw `product_name` only when the mapping produced no `name` column
(lines 51-52), assign the fresh surrogate id of this row index (line 53),
normalize the grade into `nutriScore` (lines 63-66), and coerce the numeric
columns (lines 73-75).  `cols` is `df.columns`; `ids i` is the `uuid4` string
generated for row `i`. -/
def deriveRow (cols : List String) (ids : Nat → String) (i : Nat) (r : LRow) : LRow :=
  let m := renameRow cols r
  let m := rowSet m "barcode" (.str (strip (astype_str (rowGet r "code"))))
  let m :=
    if decide ("name" ∈ mappedCols cols) then m
    else rowSet m "name" (.str (strip (astype_str (rowGet r "product_name"))))
  let m := rowSet m "id" (.str (ids i))
  let m :=
    if decide ("nutriscore_grade" ∈ cols) then
      rowSet m "nutriScore" (norm_grade (rowGet r "nutriscore_grade"))
    else rowSet m "nutriScore" .na
  coerceRow m

/-- The column list of `df_m` after lines 48-75 (column assignments append in
order: `barcode`, possibly `name`, `id`, `nutriScore`). -/
def dfmCols (cols : List String) : List String :=
  let m := mappedCols cols
  let m := m ++ ["barcode"]
  let m := if decide ("name" ∈ mappedCols cols) then m else m ++ ["name"]
  m ++ ["id", "nutriScore"]

/-- convert_csv_db.py lines 77-78, the final validity gate for one row:
`barcode.notna() & (barcode != "") & name.notna() & (name != "")`.
In pandas, `NaN != ""` evaluates to `True`, hence the `na` cases below. -/
def gateKeep (r : LRow) : Bool :=
  notna (rowGet r "barcode") && neEmpty (rowGet r "barcode")
    && notna (rowGet r "name") && neEmpty (rowGet r "name")
where
  notna : Cell → Bool
    | .na => false
    | _ => true
  neEmpty : Cell → Bool
    | .na => true
    | .str s => s ≠ ""
    | .num _ => true

/-- convert_csv_db.py line 79: `drop_duplicates(subset=["barcode"], keep="first")`,
carrying the set of barcodes already seen. -/
def dedupAux (seen : List Cell) : List LRow → List LRow
  | [] => []
  | r :: rs =>
    if decide (rowGet r "barcode" ∈ seen) then dedupAux seen rs
    else r :: dedupAux (rowGet r "barcode" :: seen) rs

/-- convert_csv_db.py line 79 from an empty seen-set. -/
def dedupBarcode (rows : List LRow) : List LRow := dedupAux [] rows

/-- convert_csv_db.py lines 81-87: `product_cols`. -/
def product_cols : List String :=
  ["id", "barcode", "name", "brand", "quantity", "countries",
   "nutriScore", "nutriScoreScore", "novaGroup",
   "categories", "energyKcal_100g", "proteins_100g", "carbs_100g",
   "sugars_100g", "fat_100g", "satFat_100g", "fiber_100g",
   "salt_100g", "sodium_100g"]

/-- convert_csv_db.py line 88: the final column selection
`[c for c in product_cols if c in df_m.columns]`. -/
def finalCols (cols : List String) : List String :=
  product_cols.filter fun c => decide (c ∈ dfmCols cols)

/-- convert_csv_db.py line 88 at row level. -/
def selectRow (cols : List String) (r : LRow) : LRow :=
  (finalCols cols).map fun c => (c, rowGet r c)

/-- convert_csv_db.py lines 47-91: the whole dataframe transformation between
`pd.read_csv` and `to_sql`.  `ids i` is the uuid4 string of row `i` (line 53).
Returns `none` when the script raises a `KeyError`: line 50 requires a `code`
column, and the line 52 fallback requires a `product_name` column (which is
exactly the case in which the fallback is NOT taken, so reaching the fallback
always raises). -/
def loaderRun (ids : Nat → String) (df : Frame) : Option Frame :=
  if decide ("code" ∈ df.cols) then
    if decide ("name" ∈ mappedCols df.cols) || decide ("product_name" ∈ df.cols) then
      let rows := df.rows.enum.map fun p => deriveRow df.cols ids p.1 p.2
      let rows := rows.filter gateKeep
      let rows := dedupBarcode rows
      some { cols := finalCols df.cols, rows := rows.map (selectRow df.cols) }
    else none
  else none

/-- Rows of the destination with the surrogate `id` column erased (the claim
about determinism modulo ids compares these). -/
def dropId (r : LRow) : LRow := r.filter fun p => decide (p.1 ≠ "id")

/-- A frame with every row's `id` column erased. -/
def frameNoId (f : Frame) : Frame := ⟨f.cols, f.rows.map dropId⟩

/-! ### Supporting lemmas about the row operations -/

theorem lookup_setEntry (c c' : String) (v : Cell) :
    ∀ r : LRow, List.lookup c' (r.map fun p => if p.1 = c then (c, v) else p) =
      if c' = c then (if (List.lookup c r).isSome then some v else none)
      else List.lookup c' r := by
  intro r
  induction r with
  | nil => simp [List.lookup]
  | cons p ps ih =>
    obtain ⟨k, w⟩ := p
    by_cases hkc : k = c
    · subst hkc
      by_cases hc' : c' = k
      · subst hc'
        simp [List.lookup_cons, ih]
      · have h1 : (c' == k) = false := beq_eq_false_iff_ne.mpr hc'
        simp [List.lookup_cons, h1, ih, hc']
    · have h3 : (c == k) = false := beq_eq_false_iff_ne.mpr (Ne.symm hkc)
      by_cases hc' : c' = k
      · subst hc'
        have h2 : (c' == c) = false := beq_eq_false_iff_ne.mpr hkc
        simp [List.lookup_cons, if_neg hkc, h3, hkc]
      · have h1 : (c' == k) = false := beq_eq_false_iff_ne.mpr hc'
        rw [List.map_cons, if_neg hkc, List.lookup_cons, List.lookup_cons, h1, h3, ih]
        simp [List.lookup_cons, h1]

theorem rowGet_rowSet (r : LRow) (c c' : String) (v : Cell) :
    rowGet (rowSet r c v) c' = if c' = c then v else rowGet r c' := by
  unfold rowSet rowGet
  by_cases hs : (List.lookup c r).isSome
  · simp only [hs, if_true, lookup_setEntry]
    by_cases hc : c' = c <;> simp [hc, hs]
  · simp only [hs, Bool.false_eq_true, if_false]
    by_cases hc : c' = c
    · subst hc
      rw [List.lookup_append]
      cases h : List.lookup c' r with
      | none => simp [List.lookup_cons]
      | some w => simp [h] at hs
    · rw [List.lookup_append]
      cases h : List.lookup c' r with
      | none =>
        have h1 : (c' == c) = false := beq_eq_false_iff_ne.mpr hc
        simp [List.lookup_cons, h1, hc]
      | some w => simp [hc]

theorem lookup_coerceRow (c : String) :
    ∀ r : LRow, List.lookup c (coerceRow r) =
      (List.lookup c r).map fun v => if decide (c ∈ num_cols) then to_numeric v else v := by
  intro r
  induction r with
  | nil => simp [coerceRow]
  | cons p ps ih =>
    obtain ⟨k, w⟩ := p
    by_cases hck : c = k
    · subst hck
      by_cases hm : c ∈ num_cols <;> simp [coerceRow, List.lookup_cons, hm, ih]
    · have h1 : (c == k) = false := beq_eq_false_iff_ne.mpr hck
      by_cases hm : k ∈ num_cols <;>
        simp [coerceRow, List.lookup_cons, hm, h1, ih] <;>
        simp [coerceRow] at ih <;> exact ih

theorem rowGet_coerceRow (r : LRow) (c : String) :
    rowGet (coerceRow r) c =
      if decide (c ∈ num_cols) then to_numeric (rowGet r c) else rowGet r c := by
  unfold rowGet
  rw [lookup_coerceRow]
  cases List.lookup c r with
  | none => by_cases hm : c ∈ num_cols <;> simp [hm, to_numeric]
  | some w => by_cases hm : c ∈ num_cols <;> simp [hm]


theorem rowGet_deriveRow_barcode (cols : List String) (ids : Nat → String) (i : Nat) (r : LRow) :
    rowGet (deriveRow cols ids i r) "barcode" = .str (strip (astype_str (rowGet r "code"))) := by
  have hb : decide ("barcode" ∈ num_cols) = false := rfl
  unfold deriveRow
  rw [rowGet_coerceRow, hb]
  simp only [Bool.false_eq_true, if_false]
  split <;> split <;> simp [rowGet_rowSet]

theorem rowGet_deriveRow_id (cols : List String) (ids : Nat → String) (i : Nat) (r : LRow) :
    rowGet (deriveRow cols ids i r) "id" = .str (ids i) := by
  have hb : decide ("id" ∈ num_cols) = false := rfl
  unfold deriveRow
  rw [rowGet_coerceRow, hb]
  simp only [Bool.false_eq_true, if_false]
  split <;> simp [rowGet_rowSet]

theorem rowGet_deriveRow_nutriScore (cols : List String) (ids : Nat → String) (i : Nat) (r : LRow) :
    rowGet (deriveRow cols ids i r) "nutriScore" =
      if decide ("nutriscore_grade" ∈ cols) then norm_grade (rowGet r "nutriscore_grade")
      else .na := by
  have hb : decide ("nutriScore" ∈ num_cols) = false := rfl
  unfold deriveRow
  rw [rowGet_coerceRow, hb]
  simp only [Bool.false_eq_true, if_false]
  split <;> simp [rowGet_rowSet]

theorem name_mem_mappedCols (cols : List String) :
    "name" ∈ mappedCols cols ↔ "product_name" ∈ cols := by
  constructor
  · intro h
    simp only [mappedCols, cols_present, List.mem_map, List.mem_filter] at h
    obtain ⟨c, ⟨hck, hcc⟩, hr⟩ := h
    simp [rename_map] at hck
    rcases hck with rfl | rfl | rfl | rfl | rfl | rfl | rfl | rfl | rfl | rfl | rfl | rfl | rfl | rfl | rfl | rfl
    · exact (decide_eq_true_eq.mp hcc)
    all_goals exact absurd hr (by decide)
  · intro h
    simp only [mappedCols, cols_present, List.mem_map, List.mem_filter]
    exact ⟨"product_name", ⟨by simp [rename_map], decide_eq_true h⟩, by decide⟩

theorem rowGet_renameRow_name (cols : List String) (r : LRow)
    (h : "product_name" ∈ cols) :
    rowGet (renameRow cols r) "name" = rowGet r "product_name" := by
  simp only [renameRow, cols_present, rename_map, List.map_cons, List.filter_cons,
    decide_eq_true h]
  simp [rowGet, List.lookup_cons, renameOf, rename_map]

theorem rowGet_deriveRow_name (cols : List String) (ids : Nat → String) (i : Nat) (r : LRow)
    (h : "product_name" ∈ cols) :
    rowGet (deriveRow cols ids i r) "name" = rowGet r "product_name" := by
  have hb : decide ("name" ∈ num_cols) = false := rfl
  have hm : decide ("name" ∈ mappedCols cols) = true :=
    decide_eq_true ((name_mem_mappedCols cols).mpr h)
  unfold deriveRow
  rw [rowGet_coerceRow, hb]
  simp only [Bool.false_eq_true, if_false, hm, if_true]
  split <;> simp [rowGet_rowSet, rowGet_renameRow_name cols r h]

/-! ### Claim C4: grade normalization -/

/-- Modelled from the spec: the claimed normalization of the nutrition grade —
"uppercase first character of the trimmed input, kept only if it is one of
{A,B,C,D,E}, else absent-value". -/
def gradeSpec (s : String) : Cell :=
  match (strip s).data with
  | [] => .na
  | c :: _ => if c.toUpper ∈ ['A', 'B', 'C', 'D', 'E'] then .str (String.mk [c.toUpper]) else .na

theorem mk_singleton_mem_valid (ch : Char) :
    (String.mk [ch] ∈ valid) ↔ ch ∈ ['A', 'B', 'C', 'D', 'E'] := by
  simp [valid, String.ext_iff]

theorem norm_grade_eq_gradeSpec (x : Cell) :
    norm_grade x = gradeSpec (astype_str x) := by
  have key : ∀ t : String,
      (match (upperStr (strip t)).data with
        | [] => Cell.na
        | ch :: _ =>
          if decide (String.mk [ch] ∈ valid) then Cell.str (String.mk [ch]) else Cell.na) =
        gradeSpec t := by
    intro t
    show (match ((strip t).data.map Char.toUpper) with
        | [] => Cell.na
        | ch :: _ =>
          if decide (String.mk [ch] ∈ valid) then Cell.str (String.mk [ch]) else Cell.na) =
      gradeSpec t
    unfold gradeSpec
    cases h : (strip t).data with
    | nil => simp
    | cons c cs =>
      simp only [List.map_cons]
      by_cases hm : c.toUpper ∈ ['A', 'B', 'C', 'D', 'E']
      · simp [hm, (mk_singleton_mem_valid c.toUpper).mpr hm]
      · have : ¬ (String.mk [c.toUpper] ∈ valid) := fun hc => hm ((mk_singleton_mem_valid _).mp hc)
        simp [hm, this]
  cases x with
  | na => decide
  | str s => exact key s
  | num q => exact key (toString q)

theorem gradeSpec_range (s : String) :
    gradeSpec s = .na ∨ gradeSpec s ∈ [Cell.str "A", .str "B", .str "C", .str "D", .str "E"] := by
  unfold gradeSpec
  cases h : (strip s).data with
  | nil => left; rfl
  | cons c cs =>
    by_cases hm : c.toUpper ∈ ['A', 'B', 'C', 'D', 'E']
    · right
      simp only [if_pos hm]
      simp only [List.mem_cons, List.not_mem_nil, or_false] at hm
      rcases hm with h1 | h1 | h1 | h1 | h1 <;> rw [h1] <;> decide
    · left; simp [hm]

/-- C4: `norm_grade` maps null to absent, otherwise keeps the uppercased first
character of the trimmed value exactly when it is one of A-E; hence the
destination nutriScore is always absent or one of the five letters; raw "b"
gives "B", raw "X" gives absent, raw "c" gives "C". -/
theorem C4_norm_grade :
    norm_grade .na = .na
      ∧ (∀ x : Cell, norm_grade x = gradeSpec (astype_str x))
      ∧ (∀ x : Cell, norm_grade x = .na
          ∨ norm_grade x ∈ [Cell.str "A", .str "B", .str "C", .str "D", .str "E"])
      ∧ norm_grade (.str "b") = .str "B"
      ∧ norm_grade (.str "X") = .na
      ∧ norm_grade (.str "c") = .str "C" := by
  refine ⟨rfl, norm_grade_eq_gradeSpec, ?_, by decide, by decide, by decide⟩
  intro x
  rw [norm_grade_eq_gradeSpec x]
  exact gradeSpec_range (astype_str x)

/-! ### Claim C5: numeric coercion -/

theorem coerceRow_keys (r : LRow) : (coerceRow r).map Prod.fst = r.map Prod.fst := by
  unfold coerceRow
  rw [List.map_map]
  apply List.map_congr_left
  intro p _
  by_cases hm : p.1 ∈ num_cols <;> simp [hm]

theorem parseNum_twelve_point_five :
    parseNum "12.5" =
      some ((1 : Rat) * (((12 : Nat) : Rat) + ((5 : Nat) : Rat) / (10 : Rat) ^ (1 : Nat))) := rfl

/-- C5: numeric coercion is total — every cell coerces to a number or to
absent-value, never an error; `"12.5"` parses to the rational 12.5 and `"n/a"`
coerces to absent-value; the coercion step keeps every row (same row count and
same columns), touching only cell values. -/
theorem C5_to_numeric :
    (∀ x : Cell, to_numeric x = .na ∨ ∃ q : Rat, to_numeric x = .num q)
      ∧ to_numeric (.str "12.5") = .num (12.5 : Rat)
      ∧ to_numeric (.str "n/a") = .na
      ∧ (∀ r : LRow, (coerceRow r).map Prod.fst = r.map Prod.fst)
      ∧ (∀ rows : List LRow, (rows.map coerceRow).length = rows.length)
      ∧ (∀ (r : LRow) (c : String), rowGet (coerceRow r) c =
          if decide (c ∈ num_cols) then to_numeric (rowGet r c) else rowGet r c) := by
  refine ⟨?_, ?_, ?_, coerceRow_keys, fun rows => List.length_map rows _, rowGet_coerceRow⟩
  · intro x
    cases x with
    | na => left; rfl
    | str s =>
      cases h : parseNum s with
      | none => left; simp [to_numeric, h]
      | some q => right; exact ⟨q, by simp [to_numeric, h]⟩
    | num q => right; exact ⟨q, rfl⟩
  · simp only [to_numeric, parseNum_twelve_point_five]
    congr 1
    norm_num
  · simp [to_numeric, show parseNum "n/a" = none from rfl]

/-! ### Claim C1: the Extractor's row filter -/

theorem xGet_projectRow_product_name (r : XRow) :
    xGet (projectRow r) "product_name" = xGet r "product_name" := by
  simp [projectRow, filteredCols, xGet, List.lookup]

theorem xGet_projectRow_energy (r : XRow) :
    xGet (projectRow r) "energy-kcal_100g" = xGet r "energy-kcal_100g" := by
  simp [projectRow, filteredCols, xGet, List.lookup]

/-- C1: a row survives the Extractor's per-chunk filter exactly when its raw
`countries_tags` cell case-insensitively contains "portugal" or "spain" as a
substring AND its `product_name` and `energy-kcal_100g` cells are both
non-null; the written rows are precisely the projections of the surviving raw
rows, in order.  Concrete checks: a Portugal row passes, a NaN countries cell
or a France row does not. -/
theorem C1_filter :
    (∀ chunk : List XRow,
      processChunk chunk =
        (chunk.filter fun r =>
            countryMask (xGet r "countries_tags")
              && ((xGet r "product_name").isSome && (xGet r "energy-kcal_100g").isSome)).map
          projectRow)
      ∧ countryMask (some "en:Portugal") = true
      ∧ countryMask (some "EN:SPAIN") = true
      ∧ countryMask (some "en:france") = false
      ∧ countryMask none = false := by
  refine ⟨?_, by decide, by decide, by decide, by decide⟩
  intro chunk
  unfold processChunk
  rw [List.filter_map, List.filter_filter]
  congr 1
  apply List.filter_congr
  intro r _
  show ((dropnaKeep ∘ projectRow) r && processChunk.countryMaskRow r) = _
  unfold processChunk.countryMaskRow dropnaKeep
  simp only [Function.comp_apply, xGet_projectRow_product_name, xGet_projectRow_energy]
  rw [Bool.and_comm]

/-! ### Claim C6: output columns of the Extractor -/

/-- A raw row used as a concrete counterexample carrier (a Portugal row that
survives the filter). -/
def rowPT : XRow :=
  [("code", some "123"), ("product_name", some "Bread"),
   ("energy-kcal_100g", some "250"), ("countries_tags", some "en:portugal")]

/-- C6 counterexample: `countries_tags` is consumed from the source
(`usecols`), yet the row written for a qualifying raw row carries exactly the
17 projected columns, which do NOT include `countries_tags` — so the output
column set is strictly smaller than the consumed column set. -/
theorem C6_cex :
    ("countries_tags" ∈ usecols)
      ∧ (processChunk [rowPT]).map (fun r => r.map Prod.fst) = [filteredCols]
      ∧ "countries_tags" ∉ filteredCols := by
  refine ⟨by decide, by decide, by decide⟩

/-- C6 as amended: every row written by the Extractor has exactly the columns
of the fixed projection list, which equals the consumed column set
(`usecols`) MINUS `countries_tags`. -/
theorem C6_output_columns :
    (∀ chunk : List XRow, ∀ r ∈ processChunk chunk, r.map Prod.fst = filteredCols)
      ∧ filteredCols = usecols.filter (fun c => decide (c ≠ "countries_tags")) := by
  refine ⟨?_, by decide⟩
  intro chunk r hr
  unfold processChunk at hr
  have hr2 := List.mem_of_mem_filter hr
  obtain ⟨s, _, rfl⟩ := List.mem_map.mp hr2
  simp only [projectRow, List.map_map]
  rw [show (Prod.fst ∘ fun c => (c, xGet s c)) = id from rfl, List.map_id]

/-- Witness for `C6_output_columns` at a concrete chunk and row. -/
theorem C6_output_columns_witness :
    (projectRow rowPT).map Prod.fst = filteredCols :=
  C6_output_columns.1 [rowPT] (projectRow rowPT) (by decide)

/-! ### Claims C2 and C9: barcode/name derivation and the validity gate -/

/-- A deterministic stand-in for the uuid4 id stream (the claims hold for any). -/
def loaderIds : Nat → String := fun i => "uuid-" ++ toString i

/-- Loader input whose single row has a null (NaN) `code`. -/
def dfNullCode : Frame :=
  ⟨["code", "product_name"], [[("code", Cell.na), ("product_name", Cell.str "Bread")]]⟩

/-- C2, at the failing input: a row whose raw `code` is null is NOT dropped —
`astype(str)` renders NaN as the non-empty string "nan", the validity gate
keeps it, and it reaches the destination with barcode "nan". -/
theorem C2_null_code_row :
    (loaderRun loaderIds dfNullCode).map (fun f => f.rows.map fun r => rowGet r "barcode")
        = some [Cell.str "nan"]
      ∧ (loaderRun loaderIds dfNullCode).map (fun f => f.rows.length) = some 1
      ∧ strip (astype_str Cell.na) = "nan" := by
  refine ⟨by decide, by decide, by decide⟩

/-- Loader input whose single row has a `product_name` with surrounding spaces. -/
def dfPadName : Frame :=
  ⟨["code", "product_name"], [[("code", Cell.str "123"), ("product_name", Cell.str " Bread ")]]⟩

/-- C9 counterexample: when `name` comes from the column-rename mapping it is
NOT trimmed — the destination name keeps its surrounding whitespace. -/
theorem C9_cex :
    (loaderRun loaderIds dfPadName).map (fun f => f.rows.map fun r => rowGet r "name")
        = some [Cell.str " Bread "]
      ∧ strip " Bread " = "Bread"
      ∧ (" Bread " : String) ≠ "Bread" := by
  refine ⟨by decide, by decide, by decide⟩

theorem lookup_map_keySelf {β : Type} (f : String → β) (c : String) :
    ∀ l : List String, c ∈ l → List.lookup c (l.map fun k => (k, f k)) = some (f c) := by
  intro l hl
  induction l with
  | nil => cases hl
  | cons k ks ih =>
    by_cases hck : c = k
    · subst hck
      simp [List.lookup_cons]
    · have h1 : (c == k) = false := beq_eq_false_iff_ne.mpr hck
      have : c ∈ ks := by
        cases List.mem_cons.mp hl with
        | inl h => exact absurd h hck
        | inr h => exact h
      simp [List.lookup_cons, h1, ih this]

theorem lookup_map_keys_none {β : Type} (f : String → β) (c : String) :
    ∀ l : List String, c ∉ l → List.lookup c (l.map fun k => (k, f k)) = none := by
  intro l hl
  induction l with
  | nil => rfl
  | cons k ks ih =>
    have hck : c ≠ k := fun h => hl (h ▸ List.mem_cons_self k ks)
    have h1 : (c == k) = false := beq_eq_false_iff_ne.mpr hck
    have hks : c ∉ ks := fun h => hl (List.mem_cons_of_mem k h)
    simp [List.lookup_cons, h1, ih hks]

theorem mem_of_mem_dedupAux (r : LRow) :
    ∀ (seen : List Cell) (rows : List LRow), r ∈ dedupAux seen rows → r ∈ rows := by
  intro seen rows
  induction rows generalizing seen with
  | nil => intro h; cases h
  | cons x xs ih =>
    intro h
    unfold dedupAux at h
    split at h
    · exact List.mem_cons_of_mem x (ih _ h)
    · cases List.mem_cons.mp h with
      | inl hh => exact hh ▸ List.mem_cons_self x xs
      | inr hh => exact List.mem_cons_of_mem x (ih _ hh)

theorem name_mem_dfmCols (cols : List String) : "name" ∈ dfmCols cols := by
  unfold dfmCols
  by_cases h : "name" ∈ mappedCols cols <;> simp [h]

theorem barcode_mem_dfmCols (cols : List String) : "barcode" ∈ dfmCols cols := by
  unfold dfmCols
  by_cases h : "name" ∈ mappedCols cols <;> simp [h]

theorem name_mem_finalCols (cols : List String) : "name" ∈ finalCols cols := by
  unfold finalCols
  exact List.mem_filter.mpr ⟨by decide, decide_eq_true (name_mem_dfmCols cols)⟩

theorem barcode_mem_finalCols (cols : List String) : "barcode" ∈ finalCols cols := by
  unfold finalCols
  exact List.mem_filter.mpr ⟨by decide, decide_eq_true (barcode_mem_dfmCols cols)⟩

theorem rowGet_selectRow (cols : List String) (r : LRow) (c : String)
    (h : c ∈ finalCols cols) : rowGet (selectRow cols r) c = rowGet r c := by
  have hl := lookup_map_keySelf (fun k => rowGet r k) c (finalCols cols) h
  show (List.lookup c (selectRow cols r)).getD Cell.na = rowGet r c
  unfold selectRow
  rw [hl]
  rfl

theorem gateKeep_split (r : LRow) (h : gateKeep r = true) :
    (rowGet r "barcode" ≠ .na ∧ rowGet r "barcode" ≠ .str "")
      ∧ (rowGet r "name" ≠ .na ∧ rowGet r "name" ≠ .str "") := by
  unfold gateKeep at h
  simp only [Bool.and_eq_true] at h
  obtain ⟨⟨⟨hbn, hbe⟩, hnn⟩, hne⟩ := h
  constructor
  · cases hv : rowGet r "barcode" with
    | na => rw [hv] at hbn; simp [gateKeep.notna] at hbn
    | str s =>
      rw [hv] at hbe
      simp only [gateKeep.neEmpty, decide_eq_true_eq] at hbe
      exact ⟨by simp, fun hc => hbe (by injection hc)⟩
    | num q => exact ⟨by simp, by simp⟩
  · cases hv : rowGet r "name" with
    | na => rw [hv] at hnn; simp [gateKeep.notna] at hnn
    | str s =>
      rw [hv] at hne
      simp only [gateKeep.neEmpty, decide_eq_true_eq] at hne
      exact ⟨by simp, fun hc => hne (by injection hc)⟩
    | num q => exact ⟨by simp, by simp⟩

/-- C9 as amended: (1) whenever the raw `product_name` column is present, the
mapping produces `name` as the RAW product-name cell, untrimmed; (2) when it
is absent the fallback branch is reached and the Loader dies with a KeyError
(no output at all), so the trimming fallback never produces a row; (3) every
destination row still has a non-null, non-empty `name`. -/
theorem C9_name_untrimmed :
    (∀ (cols : List String) (ids : Nat → String) (i : Nat) (r : LRow),
        "product_name" ∈ cols →
          rowGet (deriveRow cols ids i r) "name" = rowGet r "product_name")
      ∧ (∀ (ids : Nat → String) (df : Frame), "product_name" ∉ df.cols →
          loaderRun ids df = none)
      ∧ (∀ (ids : Nat → String) (df : Frame) (out : Frame), loaderRun ids df = some out →
          ∀ r ∈ out.rows, rowGet r "name" ≠ .na ∧ rowGet r "name" ≠ .str "") := by
  refine ⟨rowGet_deriveRow_name, ?_, ?_⟩
  · intro ids df h
    have h1 : decide ("name" ∈ mappedCols df.cols) = false :=
      decide_eq_false fun hc => h ((name_mem_mappedCols df.cols).mp hc)
    have h2 : decide ("product_name" ∈ df.cols) = false := decide_eq_false h
    unfold loaderRun
    rw [h1, h2]
    simp
  · intro ids df out hrun r hr
    unfold loaderRun at hrun
    split at hrun
    · split at hrun
      · simp only [Option.some.injEq] at hrun
        subst hrun
        simp only [List.mem_map] at hr
        obtain ⟨r', hr', rfl⟩ := hr
        have hgate : gateKeep r' = true := by
          have hmem := mem_of_mem_dedupAux r' _ _ hr'
          exact (List.mem_filter.mp hmem).2
        have := (gateKeep_split r' hgate).2
        rw [rowGet_selectRow df.cols r' "name" (name_mem_finalCols df.cols)]
        exact this
      · cases hrun
    · cases hrun

/-- Witness for `C9_name_untrimmed`: the first conjunct applied to a concrete
one-column row with a padded name. -/
theorem C9_name_untrimmed_witness :
    rowGet (deriveRow ["code", "product_name"] loaderIds 0
        [("code", Cell.str "123"), ("product_name", Cell.str " Bread ")]) "name"
      = Cell.str " Bread " :=
  C9_name_untrimmed.1 ["code", "product_name"] loaderIds 0
    [("code", Cell.str "123"), ("product_name", Cell.str " Bread ")] (by decide)

/-! ### Claim C10: no countries column survives the Extractor→Loader handoff -/

/-- C10: on any frame with exactly the Extractor's output columns, the rename
entry `countries_tags ↦ countries` matches no source column, `countries` is
never produced, and the Loader's destination rows and column list contain no
`countries` column (and the run itself succeeds). -/
theorem C10_no_countries :
    (∀ (ids : Nat → String) (rows : List LRow),
        ∃ out, loaderRun ids ⟨filteredCols, rows⟩ = some out
          ∧ out.cols = finalCols filteredCols
          ∧ "countries" ∉ out.cols
          ∧ ∀ r ∈ out.rows, List.lookup "countries" r = none)
      ∧ "countries_tags" ∉ cols_present filteredCols
      ∧ "countries" ∉ mappedCols filteredCols := by
  refine ⟨?_, by decide, by decide⟩
  intro ids rows
  refine ⟨_, rfl, rfl, ?_, ?_⟩
  · exact (show "countries" ∉ finalCols filteredCols from by decide)
  intro r hr
  simp only [List.mem_map] at hr
  obtain ⟨r', _, rfl⟩ := hr
  unfold selectRow
  exact lookup_map_keys_none (fun k => rowGet r' k) "countries" (finalCols filteredCols)
    (by decide)

/-- Witness for `C10_no_countries` at a concrete id stream and row list. -/
theorem C10_no_countries_witness :
    ∃ out, loaderRun loaderIds
          ⟨filteredCols, [[("code", Cell.str "1"), ("product_name", Cell.str "A")]]⟩ = some out
        ∧ out.cols = finalCols filteredCols
        ∧ "countries" ∉ out.cols
        ∧ ∀ r ∈ out.rows, List.lookup "countries" r = none :=
  C10_no_countries.1 loaderIds [[("code", Cell.str "1"), ("product_name", Cell.str "A")]]

/-! ### Claim C3: deduplication by barcode -/

theorem dedupAux_not_seen :
    ∀ (rows : List LRow) (seen : List Cell) (r : LRow),
      r ∈ dedupAux seen rows → rowGet r "barcode" ∉ seen := by
  intro rows
  induction rows with
  | nil => intro seen r h; cases h
  | cons x xs ih =>
    intro seen r h
    unfold dedupAux at h
    split at h
    · exact ih seen r h
    · rename_i hc
      cases List.mem_cons.mp h with
      | inl hh =>
        subst hh
        exact fun hmem => hc (decide_eq_true hmem)
      | inr hh =>
        intro hmem
        exact ih _ r hh (List.mem_cons_of_mem _ hmem)

theorem dedupAux_pairwise :
    ∀ (rows : List LRow) (seen : List Cell),
      List.Pairwise (fun a b => rowGet a "barcode" ≠ rowGet b "barcode")
        (dedupAux seen rows) := by
  intro rows
  induction rows with
  | nil => intro seen; exact List.Pairwise.nil
  | cons x xs ih =>
    intro seen
    unfold dedupAux
    split
    · exact ih seen
    · refine List.Pairwise.cons ?_ (ih _)
      intro b hb
      have := dedupAux_not_seen xs _ b hb
      intro hEq
      exact this (hEq ▸ List.mem_cons_self _ _)

theorem dedupAux_find :
    ∀ (rows : List LRow) (seen : List Cell) (r : LRow),
      r ∈ dedupAux seen rows →
        rows.find? (fun s => decide (rowGet s "barcode" = rowGet r "barcode")) = some r := by
  intro rows
  induction rows with
  | nil => intro seen r h; cases h
  | cons x xs ih =>
    intro seen r h
    unfold dedupAux at h
    split at h
    · rename_i hc
      have hx : rowGet x "barcode" ∈ seen := of_decide_eq_true hc
      have hr : rowGet r "barcode" ∉ seen := dedupAux_not_seen xs seen r h
      have hne : (decide (rowGet x "barcode" = rowGet r "barcode")) = false :=
        decide_eq_false fun hEq => hr (hEq ▸ hx)
      rw [List.find?_cons, hne]
      exact ih seen r h
    · rename_i hc
      cases List.mem_cons.mp h with
      | inl hh =>
        subst hh
        rw [List.find?_cons, decide_eq_true rfl]
      | inr hh =>
        have hr : rowGet r "barcode" ∉ _ := dedupAux_not_seen xs _ r hh
        have hne : (decide (rowGet x "barcode" = rowGet r "barcode")) = false :=
          decide_eq_false fun hEq => hr (hEq ▸ List.mem_cons_self _ _)
        rw [List.find?_cons, hne]
        exact ih _ r hh

theorem dedupAux_covers :
    ∀ (rows : List LRow) (seen : List Cell) (r : LRow), r ∈ rows →
      rowGet r "barcode" ∈ seen
        ∨ ∃ k ∈ dedupAux seen rows, rowGet k "barcode" = rowGet r "barcode" := by
  intro rows
  induction rows with
  | nil => intro seen r h; cases h
  | cons x xs ih =>
    intro seen r hr
    unfold dedupAux
    split
    · rename_i hc
      cases List.mem_cons.mp hr with
      | inl hh =>
        subst hh
        exact Or.inl (of_decide_eq_true hc)
      | inr hh => exact ih seen r hh
    · cases List.mem_cons.mp hr with
      | inl hh =>
        subst hh
        exact Or.inr ⟨r, List.mem_cons_self _ _, rfl⟩
      | inr hh =>
        cases ih (rowGet x "barcode" :: seen) r hh with
        | inl hmem =>
          cases List.mem_cons.mp hmem with
          | inl hEq => exact Or.inr ⟨x, List.mem_cons_self _ _, hEq.symm⟩
          | inr hmem2 => exact Or.inl hmem2
        | inr hex =>
          obtain ⟨k, hk, hkeq⟩ := hex
          exact Or.inr ⟨k, List.mem_cons_of_mem _ hk, hkeq⟩

theorem dedupAux_sublist :
    ∀ (rows : List LRow) (seen : List Cell), (dedupAux seen rows).Sublist rows := by
  intro rows
  induction rows with
  | nil => intro seen; exact List.Sublist.refl _
  | cons x xs ih =>
    intro seen
    unfold dedupAux
    split
    · exact List.Sublist.cons x (ih seen)
    · exact List.Sublist.cons₂ x (ih _)

/-- C3: after deduplication, barcodes are pairwise distinct (at most one row
per barcode); the surviving rows form a subsequence of the input; every
surviving row is exactly the FIRST input row carrying its barcode; every input
barcode is still represented; and the destination rows of any successful
Loader run have pairwise distinct barcodes. -/
theorem C3_dedup :
    (∀ rows : List LRow,
        List.Pairwise (fun a b => rowGet a "barcode" ≠ rowGet b "barcode") (dedupBarcode rows)
          ∧ (dedupBarcode rows).Sublist rows
          ∧ (∀ r ∈ dedupBarcode rows,
              rows.find? (fun s => decide (rowGet s "barcode" = rowGet r "barcode")) = some r)
          ∧ (∀ r ∈ rows, ∃ k ∈ dedupBarcode rows, rowGet k "barcode" = rowGet r "barcode"))
      ∧ (∀ (ids : Nat → String) (df out : Frame), loaderRun ids df = some out →
          List.Pairwise (fun a b => rowGet a "barcode" ≠ rowGet b "barcode") out.rows) := by
  constructor
  · intro rows
    refine ⟨dedupAux_pairwise rows [], dedupAux_sublist rows [], ?_, ?_⟩
    · exact fun r hr => dedupAux_find rows [] r hr
    · intro r hr
      cases dedupAux_covers rows [] r hr with
      | inl h => cases h
      | inr h => exact h
  · intro ids df out hrun
    unfold loaderRun at hrun
    split at hrun
    · split at hrun
      · simp only [Option.some.injEq] at hrun
        subst hrun
        simp only
        rw [List.pairwise_map]
        refine (dedupAux_pairwise _ []).imp ?_
        intro a b hab
        rw [rowGet_selectRow df.cols a "barcode" (barcode_mem_finalCols df.cols),
          rowGet_selectRow df.cols b "barcode" (barcode_mem_finalCols df.cols)]
        exact hab
      · cases hrun
    · cases hrun

/-- First row of the duplicate-barcode witness pair. -/
def dupRowA : LRow := [("barcode", Cell.str "789"), ("name", Cell.str "First")]

/-- Second row of the duplicate-barcode witness pair. -/
def dupRowB : LRow := [("barcode", Cell.str "789"), ("name", Cell.str "Second")]

/-- Witness for `C3_dedup`: on two rows sharing barcode "789", dedup keeps the
first and its barcode still covers the second. -/
theorem C3_dedup_witness :
    List.Pairwise (fun a b => rowGet a "barcode" ≠ rowGet b "barcode")
        (dedupBarcode [dupRowA, dupRowB])
      ∧ [dupRowA, dupRowB].find?
          (fun s => decide (rowGet s "barcode" = rowGet dupRowA "barcode")) = some dupRowA
      ∧ ∃ k ∈ dedupBarcode [dupRowA, dupRowB], rowGet k "barcode" = rowGet dupRowB "barcode" :=
  ⟨(C3_dedup.1 [dupRowA, dupRowB]).1,
   (C3_dedup.1 [dupRowA, dupRowB]).2.2.1 dupRowA (by decide),
   (C3_dedup.1 [dupRowA, dupRowB]).2.2.2 dupRowB (by decide)⟩

/-! ### Claim C8: header writing across chunks -/

/-- The append log produced by the chunk loop, as a function of the incoming
`header_written` flag and the filtered chunks. -/
def outSpec (hw : Bool) : List (List XRow) → List (Bool × List XRow)
  | [] => []
  | l :: ls => if l.isEmpty then outSpec hw ls else (!hw, l) :: outSpec true ls

theorem outSpec_cons_pos (hw : Bool) (l : List XRow) (ls : List (List XRow))
    (h : l.isEmpty = true) : outSpec hw (l :: ls) = outSpec hw ls := by
  simp [outSpec, h]

theorem outSpec_cons_neg (hw : Bool) (l : List XRow) (ls : List (List XRow))
    (h : l.isEmpty = false) : outSpec hw (l :: ls) = (!hw, l) :: outSpec true ls := by
  simp [outSpec, h]

theorem foldl_stepChunk_out :
    ∀ (chunks : List (List XRow)) (st : XState),
      (chunks.foldl stepChunk st).out =
        st.out ++ outSpec st.header_written (chunks.map processChunk) := by
  intro chunks
  induction chunks with
  | nil => intro st; simp [outSpec]
  | cons c cs ih =>
    intro st
    rw [List.foldl_cons, List.map_cons]
    by_cases he : (processChunk c).isEmpty
    · have hstep : stepChunk st c = st := by
        unfold stepChunk
        simp [he]
      rw [hstep, ih st, outSpec_cons_pos _ _ _ he]
    · have hef : (processChunk c).isEmpty = false := Bool.eq_false_iff.mpr he
      have hstep : stepChunk st c =
          { header_written := true
            out := st.out ++ [(!st.header_written, processChunk c)]
            total_kept := st.total_kept + (processChunk c).length } := by
        unfold stepChunk
        simp [he]
      rw [hstep, ih, outSpec_cons_neg _ _ _ hef]
      simp

theorem outSpec_snd :
    ∀ (ls : List (List XRow)) (hw : Bool),
      (outSpec hw ls).map Prod.snd = ls.filter fun l => !l.isEmpty := by
  intro ls
  induction ls with
  | nil => intro hw; rfl
  | cons l ls ih =>
    intro hw
    by_cases he : l.isEmpty
    · rw [outSpec_cons_pos _ _ _ he, ih hw, List.filter_cons, he]
      simp
    · have hef : l.isEmpty = false := Bool.eq_false_iff.mpr he
      rw [outSpec_cons_neg _ _ _ hef, List.filter_cons]
      have : (!l.isEmpty) = true := by simp [hef]
      rw [this]
      simp [ih]

theorem outSpec_true_flags :
    ∀ (ls : List (List XRow)) (e : Bool × List XRow), e ∈ outSpec true ls → e.1 = false := by
  intro ls
  induction ls with
  | nil => intro e h; cases h
  | cons l ls ih =>
    intro e h
    by_cases he : l.isEmpty
    · rw [outSpec_cons_pos _ _ _ he] at h
      exact ih e h
    · rw [outSpec_cons_neg _ _ _ (Bool.eq_false_iff.mpr he)] at h
      cases List.mem_cons.mp h with
      | inl hh => rw [hh]; rfl
      | inr hh => exact ih e hh

theorem outSpec_false_flags :
    ∀ (ls : List (List XRow)) (i : Nat) (h : i < (outSpec false ls).length),
      ((outSpec false ls).get ⟨i, h⟩).1 = decide (i = 0) := by
  intro ls
  induction ls with
  | nil => intro i h; cases h
  | cons l ls ih =>
    intro i h
    by_cases he : l.isEmpty
    · have hrw := outSpec_cons_pos false _ ls he
      have h' : i < (outSpec false ls).length := by rw [hrw] at h; exact h
      have := ih i h'
      revert h
      rw [hrw]
      intro h
      exact this
    · have hrw := outSpec_cons_neg false _ ls (Bool.eq_false_iff.mpr he)
      revert h
      rw [hrw]
      intro h
      cases i with
      | zero => rfl
      | succ n =>
        have hn : n < (outSpec true ls).length := Nat.lt_of_succ_lt_succ (by simpa using h)
        have hmem : (outSpec true ls).get ⟨n, hn⟩ ∈ outSpec true ls := List.get_mem _ _ _
        have hf := outSpec_true_flags ls _ hmem
        simp only [List.get_cons_succ]
        rw [hf]
        simp

/-- C8: over the whole Extractor run, the appended blocks are exactly the
non-empty filtered chunks in order; the very first appended block (index 0)
carries the header and every later one does not — so the header is written
exactly once, on the first chunk with at least one qualifying row; and no
appended block is empty (zero-yield chunks write nothing). -/
theorem C8_header :
    ∀ chunks : List (List XRow),
      (runExtract chunks).out.map Prod.snd
          = (chunks.map processChunk).filter (fun l => !l.isEmpty)
        ∧ (∀ (i : Nat) (h : i < (runExtract chunks).out.length),
            ((runExtract chunks).out.get ⟨i, h⟩).1 = decide (i = 0))
        ∧ (∀ e ∈ (runExtract chunks).out, e.2 ≠ []) := by
  intro chunks
  have hout : (runExtract chunks).out = outSpec false (chunks.map processChunk) := by
    unfold runExtract
    rw [foldl_stepChunk_out]
    rfl
  refine ⟨?_, ?_, ?_⟩
  · rw [hout, outSpec_snd]
  · intro i h
    revert h
    rw [hout]
    intro h
    exact outSpec_false_flags (chunks.map processChunk) i h
  · intro e he
    rw [hout] at he
    have : e.2 ∈ (outSpec false (chunks.map processChunk)).map Prod.snd :=
      List.mem_map.mpr ⟨e, he, rfl⟩
    rw [outSpec_snd] at this
    have := List.mem_filter.mp this
    intro hc
    rw [hc] at this
    simp at this

/-- Witness for `C8_header`: an empty-yield chunk followed by two qualifying
chunks — the first append carries the header, the second does not. -/
theorem C8_header_witness :
    (runExtract [[], [rowPT], [rowPT]]).out.map Prod.snd
        = ([[], [rowPT], [rowPT]].map processChunk).filter (fun l => !l.isEmpty)
      ∧ ((runExtract [[], [rowPT], [rowPT]]).out.get ⟨0, by decide⟩).1 = decide ((0 : Nat) = 0)
      ∧ ((runExtract [[], [rowPT], [rowPT]]).out.get ⟨1, by decide⟩).1 = decide ((1 : Nat) = 0) :=
  ⟨(C8_header [[], [rowPT], [rowPT]]).1,
   (C8_header [[], [rowPT], [rowPT]]).2.1 0 (by decide),
   (C8_header [[], [rowPT], [rowPT]]).2.1 1 (by decide)⟩

/-! ### Claim C7: the Loader is deterministic modulo the surrogate ids -/

/-- Two rows agree on every column except the surrogate `id`. -/
def agreeOffId (a b : LRow) : Prop := ∀ c : String, c ≠ "id" → rowGet a c = rowGet b c

theorem deriveRow_agreeOffId (cols : List String) (ids ids' : Nat → String) (i : Nat)
    (r : LRow) : agreeOffId (deriveRow cols ids i r) (deriveRow cols ids' i r) := by
  intro c hc
  unfold deriveRow
  by_cases hg : "nutriscore_grade" ∈ cols <;>
    by_cases hn : "name" ∈ mappedCols cols <;>
      simp [hg, hn, rowGet_coerceRow, rowGet_rowSet, hc]

theorem gateKeep_agreeOffId (a b : LRow) (h : agreeOffId a b) : gateKeep a = gateKeep b := by
  unfold gateKeep
  rw [h "barcode" (by decide), h "name" (by decide)]

theorem barcode_agreeOffId (a b : LRow) (h : agreeOffId a b) :
    rowGet a "barcode" = rowGet b "barcode" := h "barcode" (by decide)

theorem forall₂_map_same {α : Type} (f g : α → LRow) (l : List α)
    (h : ∀ x ∈ l, agreeOffId (f x) (g x)) :
    List.Forall₂ agreeOffId (l.map f) (l.map g) := by
  induction l with
  | nil => exact List.Forall₂.nil
  | cons x xs ih =>
    exact List.Forall₂.cons (h x (List.mem_cons_self _ _))
      (ih fun y hy => h y (List.mem_cons_of_mem _ hy))

theorem forall₂_filter_gate (l₁ l₂ : List LRow) (h : List.Forall₂ agreeOffId l₁ l₂) :
    List.Forall₂ agreeOffId (l₁.filter gateKeep) (l₂.filter gateKeep) := by
  induction h with
  | nil => exact List.Forall₂.nil
  | cons ha hl ih =>
    rename_i a b as bs
    rw [List.filter_cons, List.filter_cons, gateKeep_agreeOffId a b ha]
    cases gateKeep b with
    | false => exact ih
    | true => exact List.Forall₂.cons ha ih

theorem forall₂_dedup (l₁ l₂ : List LRow) (h : List.Forall₂ agreeOffId l₁ l₂) :
    ∀ seen : List Cell,
      List.Forall₂ agreeOffId (dedupAux seen l₁) (dedupAux seen l₂) := by
  induction h with
  | nil => intro seen; exact List.Forall₂.nil
  | cons ha hl ih =>
    rename_i a b as bs
    intro seen
    unfold dedupAux
    rw [barcode_agreeOffId a b ha]
    by_cases hs : rowGet b "barcode" ∈ seen
    · simp only [decide_eq_true hs, if_true]
      exact ih seen
    · simp only [decide_eq_false hs, Bool.false_eq_true, if_false]
      exact List.Forall₂.cons ha (ih _)

theorem dropId_selectRow_eq (cols : List String) (a b : LRow) (h : agreeOffId a b) :
    dropId (selectRow cols a) = dropId (selectRow cols b) := by
  unfold dropId selectRow
  rw [List.filter_map, List.filter_map]
  rw [show ((fun p : String × Cell => decide (p.1 ≠ "id")) ∘ fun c => (c, rowGet a c))
        = (fun c : String => decide (c ≠ "id")) from rfl,
    show ((fun p : String × Cell => decide (p.1 ≠ "id")) ∘ fun c => (c, rowGet b c))
        = (fun c : String => decide (c ≠ "id")) from rfl]
  apply List.map_congr_left
  intro k hk
  have hkid : k ≠ "id" := of_decide_eq_true (List.mem_filter.mp hk).2
  show (k, rowGet a k) = (k, rowGet b k)
  rw [h k hkid]

theorem map_eq_of_forall₂ (l₁ l₂ : List LRow) (h : List.Forall₂ agreeOffId l₁ l₂)
    (f : LRow → LRow) (hf : ∀ a b, agreeOffId a b → f a = f b) :
    l₁.map f = l₂.map f := by
  induction h with
  | nil => rfl
  | cons ha hl ih =>
    rename_i a b as bs
    rw [List.map_cons, List.map_cons, hf a b ha, ih]

/-- C7: two Loader runs over the same frame differ at most in the surrogate
`id` column — erasing `id` they produce identical output frames (so identical
row counts and identical values in every other column), whatever the two uuid
streams generate. -/
theorem C7_id_independent (ids ids' : Nat → String) (df : Frame) :
    Option.map frameNoId (loaderRun ids df) = Option.map frameNoId (loaderRun ids' df)
      ∧ Option.map (fun f => f.rows.length) (loaderRun ids df)
          = Option.map (fun f => f.rows.length) (loaderRun ids' df) := by
  have hfa : List.Forall₂ agreeOffId
      (dedupAux [] ((df.rows.enum.map fun p => deriveRow df.cols ids p.1 p.2).filter gateKeep))
      (dedupAux [] ((df.rows.enum.map fun p => deriveRow df.cols ids' p.1 p.2).filter gateKeep)) := by
    apply forall₂_dedup
    apply forall₂_filter_gate
    exact forall₂_map_same _ _ _ fun p _ => deriveRow_agreeOffId df.cols ids ids' p.1 p.2
  have hmap :
      (dedupAux [] ((df.rows.enum.map fun p => deriveRow df.cols ids p.1 p.2).filter gateKeep)).map
          (fun r => dropId (selectRow df.cols r))
        = (dedupAux []
            ((df.rows.enum.map fun p => deriveRow df.cols ids' p.1 p.2).filter gateKeep)).map
          (fun r => dropId (selectRow df.cols r)) :=
    map_eq_of_forall₂ _ _ hfa _ fun a b hab => dropId_selectRow_eq df.cols a b hab
  have hlen := hfa.length_eq
  constructor
  · unfold loaderRun
    split
    · split
      · simp only [Option.map_some']
        unfold frameNoId dedupBarcode
        simp only [List.map_map]
        exact congrArg _ (congrArg _ hmap)
      · rfl
    · rfl
  · unfold loaderRun
    split
    · split
      · simp only [Option.map_some']
        refine congrArg some ?_
        simp only [List.length_map, dedupBarcode]
        exact hlen
      · rfl
    · rfl

end NutriScore
